import Mathlib

/-!
Verification of the retrocausal_spin core: the Hamming(7,4) block code engine
(`src/js/hamming.js`, class `HammingCode`) and the consistency solver
(`RetrocausalFixedPointSolver`, shipped inside `src/theory_guide.md`).

Shallow embedding conventions:
* JS bits `0`/`1` become `Bool` (`false`/`true`); GF(2) addition `^` becomes
  `xor`, GF(2) multiplication `*` becomes `&&`.
* JS arrays of bits become `List Bool`; out-of-range reads use `List.getD`
  (the paths exercised here never read out of range).
* JS numbers used for rates, tolerances and averages become `ℚ`; the
  `Infinity` sentinel stored in `convergenceError` becomes `(⊤ : WithTop ℚ)`.
* `Math.random()` becomes an explicit stream `rng : ℕ → ℚ` together with a
  cursor that advances by one for every draw the JS code performs; draws of a
  real random source satisfy `0 ≤ rng n < 1`.
* `Math.log` becomes `Real.log`; the derived convergence-rate metric is the
  only `ℝ`-valued quantity.
-/

set_option maxRecDepth 4000
set_option linter.unusedVariables false

namespace RetrocausalSpin

/-! ## Block code engine: `src/js/hamming.js` -/

/-- Generator matrix G of `HammingCode` (rows exactly as in the constructor). -/
def generatorMatrix : List (List Bool) :=
  [[true,  true,  false, true ],
   [true,  false, true,  true ],
   [true,  false, false, false],
   [false, true,  true,  true ],
   [false, true,  false, false],
   [false, false, true,  false],
   [false, false, false, true ]]

/-- Parity check matrix H of `HammingCode`. -/
def parityCheckMatrix : List (List Bool) :=
  [[true,  false, true,  false, true,  false, true ],
   [false, true,  true,  false, false, true,  true ],
   [false, false, false, true,  true,  true,  true ]]

/-- Inner loop of `encode`/`calculateSyndrome`: `bit ^= row[j] * vec[j]`. -/
def gf2Dot (row vec : List Bool) : Bool :=
  (List.zipWith (fun a b => a && b) row vec).foldl xor false

/-- `HammingCode.encode`: apply the generator matrix row by row. -/
def encode (dataBits : List Bool) : List Bool :=
  generatorMatrix.map (fun row => gf2Dot row dataBits)

/-- `HammingCode.calculateSyndrome`. -/
def calculateSyndrome (codeword : List Bool) : List Bool :=
  parityCheckMatrix.map (fun row => gf2Dot row codeword)

/-- `HammingCode.syndromeToInteger`: `syndrome[0]*1 + syndrome[1]*2 + syndrome[2]*4`. -/
def syndromeToInteger (syndrome : List Bool) : ℕ :=
  (syndrome.getD 0 false).toNat * 1 +
  (syndrome.getD 1 false).toNat * 2 +
  (syndrome.getD 2 false).toNat * 4

/-- Lookup table `HammingCode.syndromeToErrorPosition`; syndrome value `0`
maps to `-1` (no error), value `v ∈ [1,7]` to the 0-indexed position `v-1`.
The input is always in `[0,7]`, so the catch-all case is unreachable. -/
def syndromeToErrorPosition : ℕ → ℤ
  | 0 => -1
  | 1 => 0
  | 2 => 1
  | 3 => 2
  | 4 => 3
  | 5 => 4
  | 6 => 5
  | 7 => 6
  | _ => -1

/-- Result record of `HammingCode.decode`. -/
structure DecodeResult where
  dataBits : List Bool
  correctedCodeword : List Bool
  errorDetected : Bool
  errorPosition : ℤ
  syndrome : List Bool
  syndromeValue : ℕ
  deriving DecidableEq, Repr, Inhabited

/-- `HammingCode.decode`: syndrome computation, single-bit correction
(`correctedCodeword[errorPosition] ^= 1`) and data-bit extraction from
positions 2, 4, 5, 6. -/
def decode (codeword : List Bool) : DecodeResult :=
  let syndrome := calculateSyndrome codeword
  let syndromeValue := syndromeToInteger syndrome
  let errorPosition := syndromeToErrorPosition syndromeValue
  let errorDetected := errorPosition != -1
  let correctedCodeword :=
    if errorDetected then
      codeword.set errorPosition.toNat (xor (codeword.getD errorPosition.toNat false) true)
    else codeword
  { dataBits := [correctedCodeword.getD 2 false, correctedCodeword.getD 4 false,
                 correctedCodeword.getD 5 false, correctedCodeword.getD 6 false]
    correctedCodeword := correctedCodeword
    errorDetected := errorDetected
    errorPosition := errorPosition
    syndrome := syndrome
    syndromeValue := syndromeValue }

/-- `HammingCode.injectErrors`: flip each bit independently when the next
draw of the random stream is `< errorRate`; the returned cursor records how
many draws were consumed (one per bit, exactly as the JS loop calls
`Math.random()` once per position). -/
def injectErrors (codeword : List Bool) (errorRate : ℚ) (rng : ℕ → ℚ) (idx : ℕ) :
    List Bool × ℕ :=
  match codeword with
  | [] => ([], idx)
  | b :: rest =>
    let b1 := if rng idx < errorRate then xor b true else b
    let r := injectErrors rest errorRate rng (idx + 1)
    (b1 :: r.1, r.2)

/-- `HammingCode.hammingDistance`: number of differing bit positions. -/
def hammingDistance (word1 word2 : List Bool) : ℕ :=
  (List.zipWith (fun a b => a != b) word1 word2).count true

/-- Bit extraction used by `HammingCode.generateCodebook`:
`[(i>>3)&1, (i>>2)&1, (i>>1)&1, i&1]`. -/
def natToDataBits (i : ℕ) : List Bool :=
  [((i >>> 3) &&& 1) == 1, ((i >>> 2) &&& 1) == 1, ((i >>> 1) &&& 1) == 1, (i &&& 1) == 1]

/-- `HammingCode.generateCodebook`: the 16 `(input, codeword)` pairs. -/
def generateCodebook : List (List Bool × List Bool) :=
  (List.range 16).map (fun i => (natToDataBits i, encode (natToDataBits i)))

/-- `HammingCode.calculateMinimumDistance`: minimum over all pairs `i < j`,
starting from `Infinity` (modelled as `⊤ : WithTop ℕ`). -/
def calculateMinimumDistance : WithTop ℕ :=
  let codebook := generateCodebook
  (((List.range codebook.length).map (fun i =>
      ((List.range codebook.length).drop (i + 1)).map (fun j =>
        ((hammingDistance (codebook.getD i ([], [])).2 (codebook.getD j ([], [])).2 : ℕ) :
          WithTop ℕ)))).flatten).foldl min ⊤

/-! ## Consistency solver: `RetrocausalFixedPointSolver` (in `src/theory_guide.md`) -/

/-- Configuration record. `solveFixedPoint` merges the caller's params over
`defaultParams`, so the model takes the already-merged record.
`maxIterations` is an `ℤ` because JS callers may pass negative values (the
repository's own tests do). -/
structure SolverConfig where
  maxIterations : ℤ
  convergenceTolerance : ℚ
  errorRate : ℚ
  dampingFactor : ℚ
  enableAdaptiveStep : Bool
  deriving DecidableEq, Repr, Inhabited

/-- `this.defaultParams` from the solver constructor. -/
def defaultParams : SolverConfig :=
  { maxIterations := 100, convergenceTolerance := 1/1000000, errorRate := 5/100,
    dampingFactor := 1/2, enableAdaptiveStep := true }

/-- Entry of `this.convergenceHistory` as pushed by `recordIterationStep`. -/
structure IterationRecord where
  iteration : ℕ
  state : List Bool
  convergenceError : ℚ
  errorsCorrected : Bool
  errorPosition : ℤ
  encodedState : List Bool
  transmittedState : List Bool
  deriving DecidableEq, Repr, Inhabited

/-- `this.statistics` from the solver constructor. The two list fields are
declared by the constructor but never written anywhere in the source. -/
structure Statistics where
  totalRuns : ℕ
  successfulConvergences : ℕ
  averageIterations : ℚ
  convergenceRates : List ℚ
  errorCorrectionEffectiveness : List ℚ
  deriving DecidableEq, Repr, Inhabited

/-- Per-invocation mutable fields of the solver object (the fields assigned
by `resetIterationState`); `convergenceError` starts at `Infinity = ⊤`. -/
structure RunState where
  convergenceHistory : List IterationRecord
  currentIteration : ℕ
  isConverged : Bool
  convergenceError : WithTop ℚ
  deriving DecidableEq, Repr, Inhabited

/-- The solver object: per-run fields plus the cross-invocation statistics. -/
structure Solver where
  state : RunState
  statistics : Statistics
  deriving DecidableEq, Repr, Inhabited

/-- A freshly constructed `RetrocausalFixedPointSolver`. -/
def initialSolver : Solver :=
  { state := { convergenceHistory := [], currentIteration := 0, isConverged := false,
               convergenceError := ⊤ }
    statistics := { totalRuns := 0, successfulConvergences := 0, averageIterations := 0,
                    convergenceRates := [], errorCorrectionEffectiveness := [] } }

/-- `resetIterationState` (the `startTime` assignment is wall-clock only). -/
def resetIterationState : RunState :=
  { convergenceHistory := [], currentIteration := 0, isConverged := false,
    convergenceError := ⊤ }

/-- Return value of `applySingleEvolutionCycle`. -/
structure EvolutionResult where
  inputData : List Bool
  encodedState : List Bool
  transmittedState : List Bool
  decodingResult : DecodeResult
  finalData : List Bool
  errorsCorrected : Bool
  errorPosition : ℤ
  deriving DecidableEq, Repr, Inhabited

/-- `simulateTemporalTransmission`: delegates to `injectErrors`. -/
def simulateTemporalTransmission (state : List Bool) (errorRate : ℚ)
    (rng : ℕ → ℚ) (idx : ℕ) : List Bool × ℕ :=
  injectErrors state errorRate rng idx

/-- `applySingleEvolutionCycle`: encode, transmit with noise, decode; the
second component is the advanced rng cursor. -/
def applySingleEvolutionCycle (inputData : List Bool) (config : SolverConfig)
    (rng : ℕ → ℚ) (idx : ℕ) : EvolutionResult × ℕ :=
  let encodedState := encode inputData
  let t := simulateTemporalTransmission encodedState config.errorRate rng idx
  let decodingResult := decode t.1
  ({ inputData := inputData, encodedState := encodedState, transmittedState := t.1,
     decodingResult := decodingResult, finalData := decodingResult.dataBits,
     errorsCorrected := decodingResult.errorDetected,
     errorPosition := decodingResult.errorPosition }, t.2)

/-- `calculateConvergenceError`: fractional Hamming distance between
successive iterates. The JS null check on `previousState` is unreachable
inside the loop, which always passes the previous iterate. -/
def calculateConvergenceError (currentState previousState : List Bool) : ℚ :=
  (((List.zipWith (fun a b => a != b) currentState previousState).count true : ℚ)) /
    (currentState.length : ℚ)

/-- `applyAdaptiveStep`: probabilistic damping. A draw is consumed only at
positions where the two states differ, exactly as the JS loop calls
`Math.random()` only in that branch. The mismatched-length case is
unreachable (both states always have length 4). -/
def applyAdaptiveStep (currentState previousState : List Bool) (config : SolverConfig)
    (rng : ℕ → ℚ) (idx : ℕ) : List Bool × ℕ :=
  match currentState, previousState with
  | [], _ => ([], idx)
  | c :: cs, [] => (c :: cs, idx)
  | c :: cs, p :: ps =>
    if c != p then
      let b := if rng idx < 1 - config.dampingFactor then c else p
      let r := applyAdaptiveStep cs ps config rng (idx + 1)
      (b :: r.1, r.2)
    else
      let r := applyAdaptiveStep cs ps config rng idx
      (c :: r.1, r.2)

/-- `recordIterationStep`: append one history entry. -/
def recordIterationStep (st : RunState) (currentData : List Bool) (error : ℚ)
    (evolutionResult : EvolutionResult) : RunState :=
  { st with convergenceHistory := st.convergenceHistory ++
      [{ iteration := st.currentIteration, state := currentData, convergenceError := error,
         errorsCorrected := evolutionResult.errorsCorrected,
         errorPosition := evolutionResult.errorPosition,
         encodedState := evolutionResult.encodedState,
         transmittedState := evolutionResult.transmittedState }] }

/-- Body of the `for` loop of `solveFixedPoint`, with fuel equal to the
number of remaining loop passes (`maxIterations.toNat` at the start, so the
loop runs while `currentIteration < maxIterations`). Returns the final
`currentData`, the run state, and the advanced rng cursor. Breaking on
convergence leaves `currentIteration` at the breaking pass; exhausting the
fuel leaves it equal to `maxIterations`, mirroring the JS `for` counter. -/
def solveLoop (config : SolverConfig) (rng : ℕ → ℚ) :
    ℕ → List Bool → RunState → ℕ → List Bool × RunState × ℕ
  | 0, currentData, st, idx => (currentData, st, idx)
  | fuel + 1, currentData, st, idx =>
    let previousData := currentData
    let evo := applySingleEvolutionCycle currentData config rng idx
    let currentData1 := evo.1.finalData
    let convergenceError := calculateConvergenceError currentData1 previousData
    let st1 := recordIterationStep
      { st with convergenceError := (convergenceError : WithTop ℚ) }
      currentData1 convergenceError evo.1
    if convergenceError ≤ config.convergenceTolerance then
      (currentData1, { st1 with isConverged := true }, evo.2)
    else
      let next :=
        if config.enableAdaptiveStep then
          applyAdaptiveStep currentData1 previousData config rng evo.2
        else (currentData1, evo.2)
      solveLoop config rng fuel next.1
        { st1 with currentIteration := st1.currentIteration + 1 } next.2

/-- `updateStatistics` (exponential running average with `alpha = 0.1`). -/
def updateStatistics (st : RunState) (stats : Statistics) : Statistics :=
  let alpha : ℚ := 1/10
  { stats with
    totalRuns := stats.totalRuns + 1
    successfulConvergences := stats.successfulConvergences +
      (if st.isConverged then 1 else 0)
    averageIterations := alpha * ((st.currentIteration : ℚ) + 1) +
      (1 - alpha) * stats.averageIterations }

/-- Return value of `analyzeErrorCorrection`. -/
structure ErrorCorrectionStats where
  totalErrorsDetected : ℕ
  errorsCorrected : ℕ
  correctionEfficiency : ℚ
  averageErrorsPerIteration : ℚ
  deriving DecidableEq, Repr, Inhabited

/-- `analyzeErrorCorrection`: one pass over the history incrementing both
counters in the same branch. -/
def analyzeErrorCorrection (history : List IterationRecord) : ErrorCorrectionStats :=
  let counts := history.foldl
    (fun (acc : ℕ × ℕ) step => if step.errorsCorrected then (acc.1 + 1, acc.2 + 1) else acc)
    (0, 0)
  { totalErrorsDetected := counts.1
    errorsCorrected := counts.2
    correctionEfficiency := if 0 < counts.1 then (counts.2 : ℚ) / (counts.1 : ℚ) else 1
    averageErrorsPerIteration := (counts.1 : ℚ) / (history.length : ℚ) }

/-- `calculateConvergenceRate`: average of `|log(e_curr/e_prev)|` over the
index pairs `(i-1, i)` for `i ≥ 2` whose errors are both positive and whose
log-ratio is negative. The JS `isFinite` guard always holds in `ℝ` when both
errors are positive, so it is not modelled. -/
noncomputable def calculateConvergenceRate (history : List IterationRecord) : ℝ :=
  if history.length < 3 then 0 else
  let acc := ((List.range history.length).drop 2).foldl
    (fun (acc : ℝ × ℕ) i =>
      let e_prev := (history.getD (i - 1) default).convergenceError
      let e_curr := (history.getD i default).convergenceError
      if 0 < e_prev ∧ 0 < e_curr then
        let rate := Real.log ((e_curr : ℝ) / (e_prev : ℝ))
        if rate < 0 then (acc.1 + |rate|, acc.2 + 1) else acc
      else acc)
    ((0 : ℝ), (0 : ℕ))
  if 0 < acc.2 then acc.1 / (acc.2 : ℝ) else 0

/-- Convergence-rate formula as the specification sentence for claim C6
reads: the mean of `-log(e_i / e_{i-1})` over ALL consecutive pairs of
non-zero convergence errors at iterations 3 and later, with no restriction
to negative log-ratios. Written from the spec for comparison with
`calculateConvergenceRate`. -/
noncomputable def claimedConvergenceRate (history : List IterationRecord) : ℝ :=
  let lst := ((List.range history.length).drop 2).filterMap (fun i =>
    let e_prev := (history.getD (i - 1) default).convergenceError
    let e_curr := (history.getD i default).convergenceError
    if e_prev ≠ 0 ∧ e_curr ≠ 0 then
      some (-(Real.log ((e_curr : ℝ) / (e_prev : ℝ))))
    else none)
  if lst.length = 0 then 0 else lst.sum / (lst.length : ℝ)

/-- Convergence-rate formula as amended after the C6 counterexample: the
mean of `-log(e_i / e_{i-1})` over consecutive pairs of non-zero convergence
errors at iterations 3 and later for which the error strictly decreases,
and 0 when no such pair exists. -/
noncomputable def amendedConvergenceRate (history : List IterationRecord) : ℝ :=
  let lst := ((List.range history.length).drop 2).filterMap (fun i =>
    let e_prev := (history.getD (i - 1) default).convergenceError
    let e_curr := (history.getD i default).convergenceError
    if e_prev ≠ 0 ∧ e_curr ≠ 0 ∧ e_curr < e_prev then
      some (-(Real.log ((e_curr : ℝ) / (e_prev : ℝ))))
    else none)
  if lst.length = 0 then 0 else lst.sum / (lst.length : ℝ)

/-- Return value of `createSolutionReport`; the wall-clock
`computationTime` field is not modelled. -/
structure SolveReport where
  finalState : List Bool
  converged : Bool
  iterations : ℕ
  finalError : WithTop ℚ
  parameters : SolverConfig
  convergenceHistory : List IterationRecord
  convergenceRate : ℝ
  errorCorrectionStats : ErrorCorrectionStats
  memoryUsage : ℕ

/-- `createSolutionReport`. -/
noncomputable def createSolutionReport (finalData : List Bool) (config : SolverConfig)
    (st : RunState) : SolveReport :=
  { finalState := finalData
    converged := st.isConverged
    iterations := st.currentIteration + 1
    finalError := st.convergenceError
    parameters := config
    convergenceHistory := st.convergenceHistory
    convergenceRate := calculateConvergenceRate st.convergenceHistory
    errorCorrectionStats := analyzeErrorCorrection st.convergenceHistory
    memoryUsage := st.convergenceHistory.length * 100 }

/-- `solveFixedPoint`: reset the per-run state, run the loop with fuel
`maxIterations.toNat` (the `for` loop runs zero times when
`maxIterations ≤ 0`), update the shared statistics, and build the report.
The function performs no parameter validation — there is none in the
source. Returns the report, the solver object after the call, and the
advanced rng cursor. -/
noncomputable def solveFixedPoint (solver : Solver) (initialData : List Bool)
    (config : SolverConfig) (rng : ℕ → ℚ) (idx : ℕ) : SolveReport × Solver × ℕ :=
  let st0 := resetIterationState
  let r := solveLoop config rng config.maxIterations.toNat initialData st0 idx
  let stats1 := updateStatistics r.2.1 solver.statistics
  (createSolutionReport r.1 config r.2.1, { state := r.2.1, statistics := stats1 }, r.2.2)

/-- Return value of `getStatus`. -/
structure Status where
  currentIteration : ℕ
  isConverged : Bool
  convergenceError : WithTop ℚ
  historyLength : ℕ
  totalRuns : ℕ
  successRate : ℚ
  deriving DecidableEq, Repr, Inhabited

/-- `getStatus`. -/
def getStatus (solver : Solver) : Status :=
  { currentIteration := solver.state.currentIteration
    isConverged := solver.state.isConverged
    convergenceError := solver.state.convergenceError
    historyLength := solver.state.convergenceHistory.length
    totalRuns := solver.statistics.totalRuns
    successRate := if 0 < solver.statistics.totalRuns then
        (solver.statistics.successfulConvergences : ℚ) / (solver.statistics.totalRuns : ℚ)
      else 0 }

/-! ## Helper lemmas -/

/-- Round-trip of the block code on every 4-bit input: decoding an encoded
word recovers the data with no error flagged (16 cases). -/
lemma decode_encode : ∀ (b1 b2 b3 b4 : Bool),
    (decode (encode [b1, b2, b3, b4])).dataBits = [b1, b2, b3, b4] ∧
    (decode (encode [b1, b2, b3, b4])).errorDetected = false := by decide

/-- The rng cursor advances by exactly one draw per bit position. -/
lemma injectErrors_cursor (errorRate : ℚ) (rng : ℕ → ℚ) :
    ∀ (codeword : List Bool) (idx : ℕ),
      (injectErrors codeword errorRate rng idx).2 = idx + codeword.length := by
  intro codeword
  induction codeword with
  | nil => intro idx; simp [injectErrors]
  | cons b rest ih => intro idx; simp [injectErrors, ih]; omega

/-- With error rate 0 and nonnegative draws, `injectErrors` flips nothing. -/
lemma injectErrors_zero (rng : ℕ → ℚ) (hrng : ∀ n, 0 ≤ rng n) :
    ∀ (codeword : List Bool) (idx : ℕ),
      injectErrors codeword 0 rng idx = (codeword, idx + codeword.length) := by
  intro codeword
  induction codeword with
  | nil => intro idx; simp [injectErrors]
  | cons b rest ih =>
    intro idx
    simp only [injectErrors, ih, if_neg (not_lt.mpr (hrng idx)), List.length_cons]
    exact Prod.ext rfl (by omega)

/-- With error rate 1 and draws below 1, `injectErrors` flips every bit. -/
lemma injectErrors_one (rng : ℕ → ℚ) (hrng : ∀ n, rng n < 1) :
    ∀ (codeword : List Bool) (idx : ℕ),
      injectErrors codeword 1 rng idx
        = (codeword.map (fun b => xor b true), idx + codeword.length) := by
  intro codeword
  induction codeword with
  | nil => intro idx; simp [injectErrors]
  | cons b rest ih =>
    intro idx
    simp only [injectErrors, ih, if_pos (hrng idx), List.length_cons, List.map_cons]
    exact Prod.ext rfl (by omega)

/-- Comparing a state with itself yields convergence error 0. -/
lemma calculateConvergenceError_self (l : List Bool) :
    calculateConvergenceError l l = 0 := by
  have h : List.zipWith (fun a b => a != b) l l = List.replicate l.length false := by
    induction l with
    | nil => rfl
    | cons a t ih => simp [List.replicate_succ, ih]
  simp [calculateConvergenceError, h, List.count_replicate]

/-! ## Claims about the block code engine -/

/-- C1: for every one of the 16 4-bit DataWords `d` and every one of the 7
bit positions `p`, flipping bit `p` of `encode d` and then decoding yields
`dataBits = d`, `errorDetected = true` and `errorPosition = p`. -/
theorem C1_single_error_correction : ∀ (b1 b2 b3 b4 : Bool) (p : Fin 7),
    (decode ((encode [b1, b2, b3, b4]).set (p : ℕ)
        (xor ((encode [b1, b2, b3, b4]).getD (p : ℕ) false) true))).dataBits
      = [b1, b2, b3, b4] ∧
    (decode ((encode [b1, b2, b3, b4]).set (p : ℕ)
        (xor ((encode [b1, b2, b3, b4]).getD (p : ℕ) false) true))).errorDetected = true ∧
    (decode ((encode [b1, b2, b3, b4]).set (p : ℕ)
        (xor ((encode [b1, b2, b3, b4]).getD (p : ℕ) false) true))).errorPosition
      = ((p : ℕ) : ℤ) := by decide

/-- C3: for every one of the 16 4-bit DataWords `d`, `decode (encode d)`
returns `dataBits = d` and `errorDetected = false`. -/
theorem C3_roundtrip : ∀ (b1 b2 b3 b4 : Bool),
    (decode (encode [b1, b2, b3, b4])).dataBits = [b1, b2, b3, b4] ∧
    (decode (encode [b1, b2, b3, b4])).errorDetected = false := by decide

/-- C8: the minimum pairwise Hamming distance over all 16 valid codewords
produced by `encode` equals exactly 3. -/
theorem C8_minimum_distance : calculateMinimumDistance = 3 := by decide

/-- C5: for every 7-bit codeword `c` and every random source whose draws lie
in `[0,1)`, `injectErrors c 0` returns `c` unchanged and `injectErrors c 1`
returns the bitwise complement of `c`. -/
theorem C5_inject_extremes (b1 b2 b3 b4 b5 b6 b7 : Bool) (rng : ℕ → ℚ) (idx : ℕ)
    (hrng : ∀ n, 0 ≤ rng n ∧ rng n < 1) :
    (injectErrors [b1, b2, b3, b4, b5, b6, b7] 0 rng idx).1
      = [b1, b2, b3, b4, b5, b6, b7] ∧
    (injectErrors [b1, b2, b3, b4, b5, b6, b7] 1 rng idx).1
      = [!b1, !b2, !b3, !b4, !b5, !b6, !b7] := by
  constructor
  · rw [injectErrors_zero rng (fun n => (hrng n).1)]
  · rw [injectErrors_one rng (fun n => (hrng n).2)]
    simp [Bool.xor_true]

/-- Witness for C5 at a concrete codeword and random source. -/
theorem C5_witness :
    (∀ n, 0 ≤ (fun _ : ℕ => (1 : ℚ)/2) n ∧ (fun _ : ℕ => (1 : ℚ)/2) n < 1) ∧
    (injectErrors [true, false, true, true, false, false, true] 0
        (fun _ : ℕ => (1 : ℚ)/2) 0).1 = [true, false, true, true, false, false, true] ∧
    (injectErrors [true, false, true, true, false, false, true] 1
        (fun _ : ℕ => (1 : ℚ)/2) 0).1 = [!true, !false, !true, !true, !false, !false, !true] := by
  refine ⟨fun n => ⟨by norm_num, by norm_num⟩, ?_⟩
  exact C5_inject_extremes true false true true false false true
    (fun _ => (1 : ℚ)/2) 0 (fun n => ⟨by norm_num, by norm_num⟩)

/-! ## Claim C2: parameter validation (code bug) -/

/-- Failing input of claim C2, taken verbatim from the repository's own test
suite (`fixedpoint_test.js`, `testErrorHandling`): valid data `[1,0,1,0]`
with params `{maxIterations: -1}` merged over the defaults. -/
def invalidConfig : SolverConfig := { defaultParams with maxIterations := -1 }

/-- C2 (code bug): the spec and the repository's own tests require
`solveFixedPoint` to fail with `InvalidParameter` on an invalid
configuration before any iteration runs, with no statistics modified. The
source performs no validation at all: with `maxIterations = -1` it returns
an ordinary report (`converged = false`, `iterations = 1`) and still
increments `statistics.totalRuns`. -/
theorem C2_no_validation_code_bug :
    (solveFixedPoint initialSolver [true, false, true, false] invalidConfig
        (fun _ => (1 : ℚ)/2) 0).1.converged = false ∧
    (solveFixedPoint initialSolver [true, false, true, false] invalidConfig
        (fun _ => (1 : ℚ)/2) 0).1.iterations = 1 ∧
    (solveFixedPoint initialSolver [true, false, true, false] invalidConfig
        (fun _ => (1 : ℚ)/2) 0).2.1.statistics.totalRuns
      = initialSolver.statistics.totalRuns + 1 := by
  exact ⟨rfl, rfl, rfl⟩

/-! ## Claim C4: zero error rate converges immediately -/

/-- C4: for every 4-bit DataWord `d` and every valid configuration with
`errorRate = 0` (any damping factor and adaptive-step setting,
`maxIterations > 0`, tolerance in `(0,1)`), `solveFixedPoint` returns
`converged = true` with `finalState = d`, taking at most 3 iterations
(in fact exactly 1), for every random source with nonnegative draws. -/
theorem C4_zero_error_converges (solver : Solver) (b1 b2 b3 b4 : Bool)
    (config : SolverConfig) (rng : ℕ → ℚ) (idx : ℕ)
    (hrate : config.errorRate = 0) (hmax : 0 < config.maxIterations)
    (htol0 : 0 < config.convergenceTolerance) (htol1 : config.convergenceTolerance < 1)
    (hrng : ∀ n, 0 ≤ rng n) :
    (solveFixedPoint solver [b1, b2, b3, b4] config rng idx).1.converged = true ∧
    (solveFixedPoint solver [b1, b2, b3, b4] config rng idx).1.finalState = [b1, b2, b3, b4] ∧
    (solveFixedPoint solver [b1, b2, b3, b4] config rng idx).1.iterations ≤ 3 := by
  obtain ⟨k, hk⟩ : ∃ k, config.maxIterations.toNat = k + 1 :=
    ⟨config.maxIterations.toNat - 1, by omega⟩
  have hinj : injectErrors (encode [b1, b2, b3, b4]) config.errorRate rng idx
      = (encode [b1, b2, b3, b4], idx + 7) := by
    rw [hrate, injectErrors_zero rng hrng]; rfl
  have hdec := decode_encode b1 b2 b3 b4
  have herr := calculateConvergenceError_self [b1, b2, b3, b4]
  refine ⟨?_, ?_, ?_⟩ <;>
  · simp only [solveFixedPoint, createSolutionReport, hk, solveLoop,
      applySingleEvolutionCycle, simulateTemporalTransmission, hinj]
    simp [hdec.1, hdec.2, herr, le_of_lt htol0, recordIterationStep, resetIterationState]

/-- Configuration used by the C4 witness: error rate 0, defaults otherwise
close to the repository's test configurations. -/
def cfgC4 : SolverConfig :=
  { maxIterations := 10, convergenceTolerance := 1/1000000, errorRate := 0,
    dampingFactor := 1/2, enableAdaptiveStep := true }

/-- Witness for C4 at a concrete DataWord, configuration and random source. -/
theorem C4_witness :
    cfgC4.errorRate = 0 ∧ 0 < cfgC4.maxIterations ∧
    0 < cfgC4.convergenceTolerance ∧ cfgC4.convergenceTolerance < 1 ∧
    (∀ n, 0 ≤ (fun _ : ℕ => (1 : ℚ)/2) n) ∧
    ((solveFixedPoint initialSolver [true, false, true, false] cfgC4
        (fun _ : ℕ => (1 : ℚ)/2) 0).1.converged = true ∧
     (solveFixedPoint initialSolver [true, false, true, false] cfgC4
        (fun _ : ℕ => (1 : ℚ)/2) 0).1.finalState = [true, false, true, false] ∧
     (solveFixedPoint initialSolver [true, false, true, false] cfgC4
        (fun _ : ℕ => (1 : ℚ)/2) 0).1.iterations ≤ 3) :=
  ⟨rfl, by decide, by norm_num [cfgC4], by norm_num [cfgC4], fun n => by norm_num,
   C4_zero_error_converges initialSolver true false true false cfgC4
     (fun _ : ℕ => (1 : ℚ)/2) 0 rfl (by decide) (by norm_num [cfgC4])
     (by norm_num [cfgC4]) (fun n => by norm_num)⟩

/-! ## Claim C9: exhausting the iteration budget -/

/-- A run of the solver loop that ends unconverged performed one evolution
cycle (and recorded one history entry) per unit of fuel. -/
lemma solveLoop_not_converged (config : SolverConfig) (rng : ℕ → ℚ) :
    ∀ (fuel : ℕ) (d : List Bool) (st : RunState) (idx : ℕ),
      (solveLoop config rng fuel d st idx).2.1.isConverged = false →
      (solveLoop config rng fuel d st idx).2.1.currentIteration = st.currentIteration + fuel ∧
      (solveLoop config rng fuel d st idx).2.1.convergenceHistory.length
        = st.convergenceHistory.length + fuel := by
  intro fuel
  induction fuel with
  | zero => intro d st idx h; simp [solveLoop]
  | succ n ih =>
    intro d st idx h
    simp only [solveLoop] at h ⊢
    by_cases hc : calculateConvergenceError
        (applySingleEvolutionCycle d config rng idx).1.finalData d ≤ config.convergenceTolerance
    · rw [if_pos hc] at h
      simp [recordIterationStep] at h
    · rw [if_neg hc] at h ⊢
      obtain ⟨h1, h2⟩ := ih _ _ _ h
      rw [h1, h2]
      simp [recordIterationStep]
      omega

/-- C9: every solve invocation that exhausts `maxIterations` without meeting
the tolerance returns `converged = false`, a convergence history of exactly
`maxIterations` records, and an `iterations` field of `maxIterations + 1`. -/
theorem C9_exhaustion (solver : Solver) (initialData : List Bool) (config : SolverConfig)
    (rng : ℕ → ℚ) (idx : ℕ) (hmax : 0 ≤ config.maxIterations)
    (hnc : (solveFixedPoint solver initialData config rng idx).1.converged = false) :
    ((solveFixedPoint solver initialData config rng idx).1.convergenceHistory.length : ℤ)
      = config.maxIterations ∧
    ((solveFixedPoint solver initialData config rng idx).1.iterations : ℤ)
      = config.maxIterations + 1 := by
  simp only [solveFixedPoint, createSolutionReport] at hnc ⊢
  obtain ⟨h1, h2⟩ := solveLoop_not_converged config rng _ initialData resetIterationState idx hnc
  rw [h1, h2]
  simp [resetIterationState]
  omega

/-- Initial DataWord of the concrete non-converging run shared by several
witnesses and counterexamples. -/
def d0 : List Bool := [false, false, false, false]

/-- Configuration of the concrete non-converging run: 3 iterations, a
tolerance the run never meets, error rate 1/2, damping disabled. -/
def cfgC6 : SolverConfig :=
  { maxIterations := 3, convergenceTolerance := 1/10, errorRate := 1/2,
    dampingFactor := 1/2, enableAdaptiveStep := false }

/-- Random stream for the concrete run: draws 0, 1, 7, 8, 16 and 17 fall
below the error rate 1/2 (flipping codeword bits {0,1}, {0,1} and {2,3} in
the three iterations); all other draws are 9/10. The resulting convergence
errors are 1/4, 1/4, 1/2. -/
def rng0 : ℕ → ℚ := fun n =>
  if n = 0 ∨ n = 1 ∨ n = 7 ∨ n = 8 ∨ n = 16 ∨ n = 17 then 0 else 9/10

/-! Closed-form evaluation of the concrete three-pass run. The block code
calls contain no rational arithmetic, so they evaluate by `decide`; the
noise injection and fractional errors involve `ℚ` literals and evaluate by
`norm_num`. -/

/-- Encoding the all-zero DataWord. -/
lemma encode_zeros_eval : encode [false, false, false, false]
    = [false, false, false, false, false, false, false] := by decide

/-- Encoding `[1,0,0,0]`. -/
lemma encode_e1_eval : encode [true, false, false, false]
    = [true, true, true, false, false, false, false] := by decide

/-- Decoding the first corrupted word of the concrete run. -/
lemma decodeC6_0 : decode [true, true, false, false, false, false, false]
    = { dataBits := [true, false, false, false]
        correctedCodeword := [true, true, true, false, false, false, false]
        errorDetected := true
        errorPosition := 2
        syndrome := [true, true, false]
        syndromeValue := 3 } := by decide

/-- Decoding the second corrupted word of the concrete run. -/
lemma decodeC6_1 : decode [false, false, true, false, false, false, false]
    = { dataBits := [false, false, false, false]
        correctedCodeword := [false, false, false, false, false, false, false]
        errorDetected := true
        errorPosition := 2
        syndrome := [true, true, false]
        syndromeValue := 3 } := by decide

/-- Decoding the third corrupted word of the concrete run. -/
lemma decodeC6_2 : decode [false, false, true, true, false, false, false]
    = { dataBits := [true, false, false, true]
        correctedCodeword := [false, false, true, true, false, false, true]
        errorDetected := true
        errorPosition := 6
        syndrome := [true, true, true]
        syndromeValue := 7 } := by decide

/-- First noise injection of the concrete run: draws 0 and 1 flip bits 0, 1. -/
lemma injC6_0 : injectErrors [false, false, false, false, false, false, false] (1/2) rng0 0
    = ([true, true, false, false, false, false, false], 7) := by
  norm_num [injectErrors, rng0]

/-- Second noise injection: draws 7 and 8 flip bits 0, 1. -/
lemma injC6_1 : injectErrors [true, true, true, false, false, false, false] (1/2) rng0 7
    = ([false, false, true, false, false, false, false], 14) := by
  norm_num [injectErrors, rng0]

/-- Third noise injection: draws 16 and 17 flip bits 2, 3. -/
lemma injC6_2 : injectErrors [false, false, false, false, false, false, false] (1/2) rng0 14
    = ([false, false, true, true, false, false, false], 21) := by
  norm_num [injectErrors, rng0]

/-- Convergence error of the first pass. -/
lemma errC6_0 : calculateConvergenceError [true, false, false, false]
    [false, false, false, false] = 1/4 := by
  have h : (List.zipWith (fun a b => a != b) [true, false, false, false]
      [false, false, false, false]).count true = 1 := by decide
  simp [calculateConvergenceError, h]

/-- Convergence error of the second pass. -/
lemma errC6_1 : calculateConvergenceError [false, false, false, false]
    [true, false, false, false] = 1/4 := by
  have h : (List.zipWith (fun a b => a != b) [false, false, false, false]
      [true, false, false, false]).count true = 1 := by decide
  simp [calculateConvergenceError, h]

/-- Convergence error of the third pass. -/
lemma errC6_2 : calculateConvergenceError [true, false, false, true]
    [false, false, false, false] = 1/2 := by
  have h : (List.zipWith (fun a b => a != b) [true, false, false, true]
      [false, false, false, false]).count true = 2 := by decide
  simp [calculateConvergenceError, h]
  norm_num

/-- History record of pass 0 of the concrete run. -/
def rec0C6 : IterationRecord :=
  { iteration := 0, state := [true, false, false, false], convergenceError := 1/4,
    errorsCorrected := true, errorPosition := 2,
    encodedState := [false, false, false, false, false, false, false],
    transmittedState := [true, true, false, false, false, false, false] }

/-- History record of pass 1 of the concrete run. -/
def rec1C6 : IterationRecord :=
  { iteration := 1, state := [false, false, false, false], convergenceError := 1/4,
    errorsCorrected := true, errorPosition := 2,
    encodedState := [true, true, true, false, false, false, false],
    transmittedState := [false, false, true, false, false, false, false] }

/-- History record of pass 2 of the concrete run. -/
def rec2C6 : IterationRecord :=
  { iteration := 2, state := [true, false, false, true], convergenceError := 1/2,
    errorsCorrected := true, errorPosition := 6,
    encodedState := [false, false, false, false, false, false, false],
    transmittedState := [false, false, true, true, false, false, false] }

set_option maxHeartbeats 1600000 in
/-- Closed form of the three-pass loop run: errors 1/4, 1/4, 1/2, no
convergence, 21 draws consumed. -/
lemma runC6_eval : solveLoop cfgC6 rng0 3 d0 resetIterationState 0
    = ([true, false, false, true],
       { convergenceHistory := [rec0C6, rec1C6, rec2C6]
         currentIteration := 3
         isConverged := false
         convergenceError := ((1/2 : ℚ) : WithTop ℚ) }, 21) := by
  have h1 : ¬((1/4 : ℚ) ≤ 1/10) := by norm_num
  have h2 : ¬((1/2 : ℚ) ≤ 1/10) := by norm_num
  simp only [solveLoop, applySingleEvolutionCycle, simulateTemporalTransmission, cfgC6, d0,
    encode_zeros_eval, encode_e1_eval, decodeC6_0, decodeC6_1, decodeC6_2,
    injC6_0, injC6_1, injC6_2, errC6_0, errC6_1, errC6_2, h1, h2,
    recordIterationStep, resetIterationState, rec0C6, rec1C6, rec2C6,
    Int.toNat_ofNat, List.nil_append, List.cons_append, List.singleton_append,
    Bool.false_eq_true, reduceIte]

/-- Projections of the report of the concrete three-pass run. -/
lemma reportC6_eval :
    (solveFixedPoint initialSolver d0 cfgC6 rng0 0).1.converged = false ∧
    (solveFixedPoint initialSolver d0 cfgC6 rng0 0).1.convergenceHistory
      = [rec0C6, rec1C6, rec2C6] ∧
    (solveFixedPoint initialSolver d0 cfgC6 rng0 0).1.iterations = 4 ∧
    (solveFixedPoint initialSolver d0 cfgC6 rng0 0).1.convergenceRate
      = calculateConvergenceRate [rec0C6, rec1C6, rec2C6] := by
  refine ⟨?_, ?_, ?_, ?_⟩ <;>
  · simp only [solveFixedPoint]
    rw [show cfgC6.maxIterations.toNat = 3 from rfl, runC6_eval]
    simp only [createSolutionReport]

/-- Witness for C9 at the concrete non-converging run. -/
theorem C9_witness :
    (0 ≤ cfgC6.maxIterations) ∧
    ((solveFixedPoint initialSolver d0 cfgC6 rng0 0).1.converged = false) ∧
    (((solveFixedPoint initialSolver d0 cfgC6 rng0 0).1.convergenceHistory.length : ℤ)
        = cfgC6.maxIterations ∧
     ((solveFixedPoint initialSolver d0 cfgC6 rng0 0).1.iterations : ℤ)
        = cfgC6.maxIterations + 1) :=
  ⟨by decide, reportC6_eval.1,
   C9_exhaustion initialSolver d0 cfgC6 rng0 0 (by decide) reportC6_eval.1⟩

/-! ## Claim C6: the convergence-rate metric -/

/-- Value of the code's convergence-rate metric on the concrete history:
the only index pair has increasing error, so no pair is averaged and the
result is 0. -/
lemma calcRateC6 : calculateConvergenceRate [rec0C6, rec1C6, rec2C6] = 0 := by
  have hlen : ([rec0C6, rec1C6, rec2C6] : List IterationRecord).length = 3 := rfl
  have hL : (List.range 3).drop 2 = [2] := rfl
  have e1 : rec1C6.convergenceError = 1/4 := rfl
  have e2 : rec2C6.convergenceError = 1/2 := rfl
  have hlog : ¬(Real.log 2 < 0) := not_lt.mpr (le_of_lt (Real.log_pos one_lt_two))
  simp only [calculateConvergenceRate, hlen, hL, List.foldl_cons, List.foldl_nil]
  norm_num [e1, e2, hlog]

/-- Value of the claim's formula on the same history: the single non-zero
pair contributes `-log((1/2)/(1/4)) = -log 2`. -/
lemma claimedRateC6 : claimedConvergenceRate [rec0C6, rec1C6, rec2C6] = -(Real.log 2) := by
  have hlen : ([rec0C6, rec1C6, rec2C6] : List IterationRecord).length = 3 := rfl
  have hL : (List.range 3).drop 2 = [2] := rfl
  have e1 : rec1C6.convergenceError = 1/4 := rfl
  have e2 : rec2C6.convergenceError = 1/2 := rfl
  simp only [claimedConvergenceRate, hlen, hL, List.filterMap_cons, List.filterMap_nil]
  norm_num [e1, e2, List.sum_cons, List.sum_nil]

/-- C6 (counterexample): a solve invocation whose history has 3 entries with
errors 1/4, 1/4, 1/2, where the code's derived convergence-rate metric is 0
while the claim's formula — the mean of `-log(e_i/e_{i-1})` over ALL
consecutive pairs of non-zero errors from iteration 3 on — gives `-log 2`.
The code averages only pairs whose log-ratio is negative. -/
theorem C6_counterexample :
    3 ≤ (solveFixedPoint initialSolver d0 cfgC6 rng0 0).1.convergenceHistory.length ∧
    (solveFixedPoint initialSolver d0 cfgC6 rng0 0).1.convergenceRate ≠
      claimedConvergenceRate
        (solveFixedPoint initialSolver d0 cfgC6 rng0 0).1.convergenceHistory := by
  obtain ⟨-, hh, -, hr⟩ := reportC6_eval
  refine ⟨by rw [hh]; norm_num, ?_⟩
  rw [hh, hr, calcRateC6, claimedRateC6]
  have hpos : 0 < Real.log 2 := Real.log_pos one_lt_two
  exact ne_of_gt (by linarith)

/-- Every convergence error recorded by the solver loop is nonnegative
(it is a count of differing bits divided by a length). -/
lemma solveLoop_errors_nonneg (config : SolverConfig) (rng : ℕ → ℚ) :
    ∀ (fuel : ℕ) (d : List Bool) (st : RunState) (idx : ℕ),
      (∀ r ∈ st.convergenceHistory, 0 ≤ r.convergenceError) →
      ∀ r ∈ (solveLoop config rng fuel d st idx).2.1.convergenceHistory,
        0 ≤ r.convergenceError := by
  intro fuel
  induction fuel with
  | zero => intro d st idx hst; simpa [solveLoop] using hst
  | succ n ih =>
    intro d st idx hst
    have hnn : (0 : ℚ) ≤ calculateConvergenceError
        (applySingleEvolutionCycle d config rng idx).1.finalData d := by
      unfold calculateConvergenceError
      positivity
    simp only [solveLoop]
    by_cases hc : calculateConvergenceError
        (applySingleEvolutionCycle d config rng idx).1.finalData d ≤ config.convergenceTolerance
    · rw [if_pos hc]
      intro r hr
      simp only [recordIterationStep, List.mem_append, List.mem_singleton] at hr
      rcases hr with hr | hr
      · exact hst r hr
      · subst hr; exact hnn
    · rw [if_neg hc]
      apply ih
      intro r hr
      simp only [recordIterationStep, List.mem_append, List.mem_singleton] at hr
      rcases hr with hr | hr
      · exact hst r hr
      · subst hr; exact hnn

/-- Bridge between the accumulating fold of `calculateConvergenceRate` and
the filter of `amendedConvergenceRate`: on histories with nonnegative
errors, a pair contributes `|log(e_curr/e_prev)|` to the fold exactly when
both errors are non-zero and the error strictly decreases, and the
contribution equals `-log(e_curr/e_prev)`. -/
lemma rate_fold_eq (history : List IterationRecord) :
    ∀ (L : List ℕ), (∀ i ∈ L, i < history.length ∧ i - 1 < history.length) →
      (∀ r ∈ history, 0 ≤ r.convergenceError) →
      ∀ (s : ℝ) (n : ℕ),
      List.foldl (fun (acc : ℝ × ℕ) i =>
          if 0 < (history.getD (i - 1) default).convergenceError ∧
              0 < (history.getD i default).convergenceError then
            if Real.log (((history.getD i default).convergenceError : ℝ) /
                ((history.getD (i - 1) default).convergenceError : ℝ)) < 0 then
              (acc.1 + |Real.log (((history.getD i default).convergenceError : ℝ) /
                  ((history.getD (i - 1) default).convergenceError : ℝ))|, acc.2 + 1)
            else acc
          else acc) (s, n) L
      = (s + (L.filterMap (fun i =>
            if (history.getD (i - 1) default).convergenceError ≠ 0 ∧
                (history.getD i default).convergenceError ≠ 0 ∧
                (history.getD i default).convergenceError
                  < (history.getD (i - 1) default).convergenceError then
              some (-(Real.log (((history.getD i default).convergenceError : ℝ) /
                ((history.getD (i - 1) default).convergenceError : ℝ))))
            else none)).sum,
         n + (L.filterMap (fun i =>
            if (history.getD (i - 1) default).convergenceError ≠ 0 ∧
                (history.getD i default).convergenceError ≠ 0 ∧
                (history.getD i default).convergenceError
                  < (history.getD (i - 1) default).convergenceError then
              some (-(Real.log (((history.getD i default).convergenceError : ℝ) /
                ((history.getD (i - 1) default).convergenceError : ℝ))))
            else none)).length) := by
  intro L
  induction L with
  | nil => intro _ _ s n; simp
  | cons i t ih =>
    intro hL hnn s n
    have hi : i < history.length := (hL i (List.mem_cons_self i t)).1
    have hi1 : i - 1 < history.length := (hL i (List.mem_cons_self i t)).2
    have hmem : history.getD i default ∈ history := by
      rw [List.getD_eq_getElem _ _ hi]; exact List.getElem_mem hi
    have hmem1 : history.getD (i - 1) default ∈ history := by
      rw [List.getD_eq_getElem _ _ hi1]; exact List.getElem_mem hi1
    have hec : 0 ≤ (history.getD i default).convergenceError := hnn _ hmem
    have hep : 0 ≤ (history.getD (i - 1) default).convergenceError := hnn _ hmem1
    have hLt : ∀ j ∈ t, j < history.length ∧ j - 1 < history.length :=
      fun j hj => hL j (List.mem_cons_of_mem i hj)
    rw [List.foldl_cons, List.filterMap_cons]
    by_cases hpos : 0 < (history.getD (i - 1) default).convergenceError ∧
        0 < (history.getD i default).convergenceError
    · by_cases hlt : (history.getD i default).convergenceError
          < (history.getD (i - 1) default).convergenceError
      · have hdivpos : (0 : ℝ) < ((history.getD i default).convergenceError : ℝ) /
            ((history.getD (i - 1) default).convergenceError : ℝ) := by
          exact div_pos (by exact_mod_cast hpos.2) (by exact_mod_cast hpos.1)
        have hratelt : Real.log (((history.getD i default).convergenceError : ℝ) /
            ((history.getD (i - 1) default).convergenceError : ℝ)) < 0 := by
          apply Real.log_neg hdivpos
          rw [div_lt_one (by exact_mod_cast hpos.1)]
          exact_mod_cast hlt
        rw [if_pos hpos, if_pos hratelt,
          if_pos ⟨ne_of_gt hpos.1, ne_of_gt hpos.2, hlt⟩]
        rw [ih hLt hnn _ _]
        rw [abs_of_neg hratelt]
        refine Prod.ext ?_ ?_
        · simp only [List.sum_cons]; ring
        · simp only [List.length_cons]; omega
      · have hge : (history.getD (i - 1) default).convergenceError
            ≤ (history.getD i default).convergenceError := not_lt.mp hlt
        have hratege : ¬ (Real.log (((history.getD i default).convergenceError : ℝ) /
            ((history.getD (i - 1) default).convergenceError : ℝ)) < 0) := by
          apply not_lt.mpr
          apply Real.log_nonneg
          rw [le_div_iff₀ (by exact_mod_cast hpos.1)]
          simpa using (by exact_mod_cast hge :
            ((history.getD (i - 1) default).convergenceError : ℝ)
              ≤ ((history.getD i default).convergenceError : ℝ))
        rw [if_pos hpos, if_neg hratege, if_neg (fun h => hlt h.2.2)]
        exact ih hLt hnn s n
    · have hcond : ¬((history.getD (i - 1) default).convergenceError ≠ 0 ∧
          (history.getD i default).convergenceError ≠ 0 ∧
          (history.getD i default).convergenceError
            < (history.getD (i - 1) default).convergenceError) := by
        intro h
        exact hpos ⟨lt_of_le_of_ne hep (Ne.symm h.1), lt_of_le_of_ne hec (Ne.symm h.2.1)⟩
      rw [if_neg hpos, if_neg hcond]
      exact ih hLt hnn s n

/-- On any history with nonnegative errors the code's convergence-rate
metric equals the amended formula. -/
lemma calculateConvergenceRate_eq_amended (history : List IterationRecord)
    (hnn : ∀ r ∈ history, 0 ≤ r.convergenceError) :
    calculateConvergenceRate history = amendedConvergenceRate history := by
  by_cases hlen : history.length < 3
  · simp only [calculateConvergenceRate, amendedConvergenceRate, if_pos hlen]
    have hnil : (List.range history.length).drop 2 = [] := by
      apply List.drop_eq_nil_of_le
      simpa using by omega
    rw [hnil]
    simp
  · simp only [calculateConvergenceRate, amendedConvergenceRate, if_neg hlen]
    have hL : ∀ i ∈ (List.range history.length).drop 2,
        i < history.length ∧ i - 1 < history.length := by
      intro i hi
      have := List.mem_range.mp (List.mem_of_mem_drop hi)
      omega
    rw [rate_fold_eq history _ hL hnn 0 0]
    simp only [zero_add]
    rcases Nat.eq_zero_or_pos (((List.range history.length).drop 2).filterMap (fun i =>
        if (history.getD (i - 1) default).convergenceError ≠ 0 ∧
            (history.getD i default).convergenceError ≠ 0 ∧
            (history.getD i default).convergenceError
              < (history.getD (i - 1) default).convergenceError then
          some (-(Real.log (((history.getD i default).convergenceError : ℝ) /
            ((history.getD (i - 1) default).convergenceError : ℝ))))
        else none)).length with h0 | h0
    · rw [h0]; simp
    · rw [if_pos h0, if_neg (by omega)]

/-- C6 (amended): for every solve invocation whose iteration history has at
least 3 entries, the derived convergence-rate metric equals the mean of the
negative log-ratios `-log(e_i/e_{i-1})` over consecutive pairs of non-zero
convergence errors at iterations 3 and later FOR WHICH THE ERROR STRICTLY
DECREASES (`e_i < e_{i-1}`), and 0 when no such pair exists. -/
theorem C6_amended_convergence_rate (solver : Solver) (initialData : List Bool)
    (config : SolverConfig) (rng : ℕ → ℚ) (idx : ℕ)
    (hlen : 3 ≤ (solveFixedPoint solver initialData config rng idx).1.convergenceHistory.length) :
    (solveFixedPoint solver initialData config rng idx).1.convergenceRate
      = amendedConvergenceRate
          (solveFixedPoint solver initialData config rng idx).1.convergenceHistory := by
  have hnn : ∀ r ∈ (solveFixedPoint solver initialData config rng idx).1.convergenceHistory,
      0 ≤ r.convergenceError := by
    simp only [solveFixedPoint, createSolutionReport]
    exact solveLoop_errors_nonneg config rng _ initialData resetIterationState idx
      (by simp [resetIterationState])
  simp only [solveFixedPoint, createSolutionReport] at hnn ⊢
  exact calculateConvergenceRate_eq_amended _ hnn

/-- Witness for the amended C6 at the concrete three-pass run. -/
theorem C6_amended_witness :
    3 ≤ (solveFixedPoint initialSolver d0 cfgC6 rng0 0).1.convergenceHistory.length ∧
    (solveFixedPoint initialSolver d0 cfgC6 rng0 0).1.convergenceRate
      = amendedConvergenceRate
          (solveFixedPoint initialSolver d0 cfgC6 rng0 0).1.convergenceHistory :=
  ⟨by rw [reportC6_eval.2.1]; norm_num,
   C6_amended_convergence_rate initialSolver d0 cfgC6 rng0 0
     (by rw [reportC6_eval.2.1]; norm_num)⟩

/-! ## Claim C10: correction efficiency is identically 1 -/

/-- Both counters of the `analyzeErrorCorrection` fold stay equal. -/
lemma analyzeErrorCorrection_counts (history : List IterationRecord) :
    ∀ (a b : ℕ), a = b →
      (history.foldl (fun (acc : ℕ × ℕ) step =>
        if step.errorsCorrected then (acc.1 + 1, acc.2 + 1) else acc) (a, b)).1
      = (history.foldl (fun (acc : ℕ × ℕ) step =>
        if step.errorsCorrected then (acc.1 + 1, acc.2 + 1) else acc) (a, b)).2 := by
  induction history with
  | nil => intro a b hab; simpa using hab
  | cons r t ih =>
    intro a b hab
    simp only [List.foldl_cons]
    by_cases hr : r.errorsCorrected <;> simp only [hr, if_pos, if_neg, Bool.false_eq_true,
      ite_true, ite_false] <;> exact ih _ _ (by omega)

/-- On any history the reported correction efficiency equals 1, because the
detected and corrected counters are incremented together. -/
lemma analyzeErrorCorrection_eff (history : List IterationRecord) :
    (analyzeErrorCorrection history).correctionEfficiency = 1 := by
  simp only [analyzeErrorCorrection]
  have h := analyzeErrorCorrection_counts history 0 0 rfl
  by_cases h0 : 0 < (history.foldl (fun (acc : ℕ × ℕ) step =>
      if step.errorsCorrected then (acc.1 + 1, acc.2 + 1) else acc) (0, 0)).1
  · rw [if_pos h0, ← h, div_self]
    exact Nat.cast_ne_zero.mpr (by omega)
  · rw [if_neg h0]

/-- C10: for every solve invocation, regardless of error rate, convergence
outcome or random draws, the returned
`errorCorrectionStats.correctionEfficiency` equals exactly 1. -/
theorem C10_correction_efficiency_one (solver : Solver) (initialData : List Bool)
    (config : SolverConfig) (rng : ℕ → ℚ) (idx : ℕ) :
    (solveFixedPoint solver initialData config rng idx).1.errorCorrectionStats.correctionEfficiency
      = 1 := by
  simp only [solveFixedPoint, createSolutionReport]
  exact analyzeErrorCorrection_eff _

/-! ## Claim C7: state across invocations -/

/-- One definitional unfolding of the solver loop, used to evaluate runs
that break out of the loop before exhausting their fuel. -/
lemma solveLoop_succ (config : SolverConfig) (rng : ℕ → ℚ) (fuel : ℕ)
    (currentData : List Bool) (st : RunState) (idx : ℕ) :
    solveLoop config rng (fuel + 1) currentData st idx =
      (let evo := applySingleEvolutionCycle currentData config rng idx
       let currentData1 := evo.1.finalData
       let convergenceError := calculateConvergenceError currentData1 currentData
       let st1 := recordIterationStep
         { st with convergenceError := (convergenceError : WithTop ℚ) }
         currentData1 convergenceError evo.1
       if convergenceError ≤ config.convergenceTolerance then
         (currentData1, { st1 with isConverged := true }, evo.2)
       else
         let next :=
           if config.enableAdaptiveStep then
             applyAdaptiveStep currentData1 currentData config rng evo.2
           else (currentData1, evo.2)
         solveLoop config rng fuel next.1
           { st1 with currentIteration := st1.currentIteration + 1 } next.2) := rfl

/-- Constant random stream used by the converging concrete run. -/
def rngHalf : ℕ → ℚ := fun _ => 1/2

/-- Encoding of the C7 witness DataWord. -/
lemma encode_d4_eval : encode [true, false, true, false]
    = [true, false, true, true, false, true, false] := by decide

/-- Decoding the uncorrupted codeword of the converging run. -/
lemma decode_c4_eval : decode [true, false, true, true, false, true, false]
    = { dataBits := [true, false, true, false]
        correctedCodeword := [true, false, true, true, false, true, false]
        errorDetected := false
        errorPosition := -1
        syndrome := [false, false, false]
        syndromeValue := 0 } := by decide

/-- Noise injection at rate 0 leaves the codeword unchanged. -/
lemma injConv (idx : ℕ) : injectErrors [true, false, true, true, false, true, false] 0 rngHalf idx
    = ([true, false, true, true, false, true, false], idx + 7) := by
  rw [injectErrors_zero rngHalf (fun n => by norm_num [rngHalf])]; rfl

/-- History record of the single pass of the converging run. -/
def recConv : IterationRecord :=
  { iteration := 0, state := [true, false, true, false], convergenceError := 0,
    errorsCorrected := false, errorPosition := -1,
    encodedState := [true, false, true, true, false, true, false],
    transmittedState := [true, false, true, true, false, true, false] }

/-- Closed form of the converging run: error rate 0 round-trips exactly, so
the loop breaks on the first pass. -/
lemma runConv_eval (idx : ℕ) :
    solveLoop cfgC4 rngHalf 10 [true, false, true, false] resetIterationState idx
    = ([true, false, true, false],
       { convergenceHistory := [recConv]
         currentIteration := 0
         isConverged := true
         convergenceError := ((0 : ℚ) : WithTop ℚ) }, idx + 7) := by
  have h0 : ((0 : ℚ) ≤ 1/1000000) := by norm_num
  have herr : calculateConvergenceError [true, false, true, false] [true, false, true, false] = 0 :=
    calculateConvergenceError_self _
  rw [show (10 : ℕ) = 9 + 1 from rfl, solveLoop_succ]
  simp only [applySingleEvolutionCycle, simulateTemporalTransmission, cfgC4,
    encode_d4_eval, decode_c4_eval, injConv, herr, h0,
    recordIterationStep, resetIterationState, recConv,
    List.nil_append, reduceIte]

/-- C7 (counterexample): mutable statistics written by one invocation
survive and are observable across invocations. After one solve,
`getStatus` reports `totalRuns = 1` (it was 0 on the fresh solver); and the
`successRate` observable after an identical second invocation differs
depending on whether the first invocation ran (1/2 with it, 1 without it). -/
theorem C7_counterexample :
    (getStatus (solveFixedPoint initialSolver d0 cfgC6 rng0 0).2.1).totalRuns = 1 ∧
    (getStatus initialSolver).totalRuns = 0 ∧
    (getStatus (solveFixedPoint (solveFixedPoint initialSolver d0 cfgC6 rng0 0).2.1
        [true, false, true, false] cfgC4 rngHalf 21).2.1).successRate = 1/2 ∧
    (getStatus (solveFixedPoint initialSolver
        [true, false, true, false] cfgC4 rngHalf 0).2.1).successRate = 1 := by
  refine ⟨?_, rfl, ?_, ?_⟩
  · simp only [solveFixedPoint]
    rw [show cfgC6.maxIterations.toNat = 3 from rfl, runC6_eval]
    simp only [getStatus, updateStatistics, initialSolver]
  · simp only [solveFixedPoint]
    rw [show cfgC6.maxIterations.toNat = 3 from rfl, runC6_eval,
      show cfgC4.maxIterations.toNat = 10 from rfl, runConv_eval 21]
    simp only [getStatus, updateStatistics, initialSolver]
    norm_num
  · simp only [solveFixedPoint]
    rw [show cfgC4.maxIterations.toNat = 10 from rfl, runConv_eval 0]
    simp only [getStatus, updateStatistics, initialSolver]
    norm_num

/-- C7 (amended): the returned SolveReport of an invocation is independent
of all state left in the solver object by earlier invocations (first
conjunct), while the solver retains shared mutable statistics: the
statistics after an invocation are the update of the statistics it found,
so each invocation's writes are observable by later callers (second
conjunct). -/
theorem C7_amended_report_independent (s1 s2 : Solver) (initialData : List Bool)
    (config : SolverConfig) (rng : ℕ → ℚ) (idx : ℕ) :
    (solveFixedPoint s1 initialData config rng idx).1
      = (solveFixedPoint s2 initialData config rng idx).1 ∧
    (solveFixedPoint s1 initialData config rng idx).2.1.statistics
      = updateStatistics (solveFixedPoint s1 initialData config rng idx).2.1.state
          s1.statistics :=
  ⟨rfl, rfl⟩

end RetrocausalSpin
